import Mathlib

/-!
Shallow embedding of `src/pyspectre/core.py` (pyspectre): the interactive
Spectre session protocol engine.

External effects — process liveness, the outcome of the pexpect pattern
match, the file system, and the binary result-file decoder from `pynut` —
are modelled by an explicit environment record (`Env` for session
operations, `SimEnv` for the one-shot `simulate` path).  Each embedded
function returns the Python function's value-or-raised-error together with
its observable side effects (lines sent to the process, warnings emitted,
result-file deletion, text printed).

Dataset payloads (pandas DataFrames) are abstracted as `Nat`; for the
reserved `offset` entry of a decoder result the payload is the byte
position it reports, exactly the value `run_all` stores back into
`session.offset`.
-/

namespace PySpectre

/-- The `Session` dataclass (core.py lines 254-291).  The `repl` process
handle is not carried as a field: its observable behaviour (liveness, the
pattern-match outcome, the `before` transcript) is modelled by `Env`.
Offsets are byte positions, hence `Nat`. -/
structure Session where
  net_file : String
  raw_file : String
  prompt : String
  succ : String
  fail : String
  offset : Nat

/-- Outcome of one `repl.expect(pattern)` call: either it returned a pattern
index, or a `pexpect` exception (stream closed / timeout) was raised with
some message. -/
inductive ExpectOutcome where
  | matched (idx : Nat)
  | closed (msg : String)

/-- The world outside the pure control flow of `core.py` at the time of one
session operation: process liveness, what `expect` will observe, the
transcript `repl.before` it leaves behind, the state of the result file on
disk, and the external decoder `plot_dict (read_raw raw off_set)` as a
function from (path, offset) to a named-dataset mapping. -/
structure Env where
  alive : Bool
  expectRes : ExpectOutcome
  before : String
  rawFileExists : Bool
  rawFileReadable : Bool
  decoder : String → Nat → List (String × Nat)

/-- The `RuntimeError`s raised by `run_command` (core.py lines 430-450),
separated by raise site: the bracket-balance validation error, the
re-raised pexpect transport error, and the dead-session error. -/
inductive RCErr where
  | syntaxError (command : String)
  | pexpectError (command msg : String)
  | sessionDead

/-- Result of one `run_command` dispatch: the returned boolean or raised
error, plus observable side effects. -/
structure RCOut where
  result : Except RCErr Bool
  sent : List String
  warnings : List String
  deleted : List String

/-- Python `command.count(c)` for a single character, as in the Python bracket
check. -/
def countChar (s : String) (c : Char) : Nat := s.toList.count c

/-- The `RuntimeWarning` text of core.py line 439. -/
def crashWarning (command : String) : String :=
  "Spectre might have crashed while executing command: " ++ command

/-- Embedding of `run_command` (core.py lines 395-450): bracket-balance validation first;
then, on a live process, send the line and wait for the prompt, warning and
returning `False` on an unexpected pattern index, and re-raising any pexpect
exception as a `RuntimeError`; on a dead process, delete the session's
result file if it exists and raise. -/
def run_command (s : Session) (command : String) (env : Env) : RCOut :=
  if countChar command '(' ≠ countChar command ')' then
    { result := .error (.syntaxError command), sent := [], warnings := [], deleted := [] }
  else if env.alive then
    match env.expectRes with
    | .matched ret =>
        { result := .ok (ret == 0)
          sent := [command]
          warnings := if ret ≠ 0 then [crashWarning command] else []
          deleted := [] }
    | .closed m =>
        { result := .error (.pexpectError command m)
          sent := [command]
          warnings := []
          deleted := [] }
  else
    { result := .error .sessionDead, sent := [], warnings := [],
      deleted := if env.rawFileExists then [s.raw_file] else [] }

/-- C4: a command text with unbalanced parentheses makes `run_command` fail
with the validation (syntax) error before any I/O: nothing is sent through
the process handle, no warning is emitted and no file is deleted, whatever
the liveness of the process. -/
theorem run_command_unbalanced_validates (s : Session) (command : String) (env : Env)
    (h : countChar command '(' ≠ countChar command ')') :
    run_command s command env =
      { result := .error (.syntaxError command), sent := [], warnings := [],
        deleted := [] } := by
  unfold run_command
  rw [if_pos h]

theorem run_command_unbalanced_validates_witness :
    countChar "(foo (bar" '(' ≠ countChar "(foo (bar" ')' ∧
      run_command ⟨"n", "r", "p", "s", "f", 0⟩ "(foo (bar"
          ⟨false, .matched 0, "", true, true, fun _ _ => []⟩ =
        { result := .error (.syntaxError "(foo (bar"), sent := [], warnings := [],
          deleted := [] } :=
  ⟨by decide, run_command_unbalanced_validates _ _ _ (by decide)⟩

/-- C5 counterexample: a dispatch attempted while the process is dead does
not always delete the result file before failing — with the unbalanced
command `"("` and an existing result file, the bracket validation fires
first, so the error raised is the validation error and the file is left in
place, contradicting the claim's unconditional dead-session cleanup. -/
theorem run_command_dead_no_cleanup_cex :
    (run_command ⟨"n", "r", "p", "s", "f", 0⟩ "("
        ⟨false, .matched 0, "", true, true, fun _ _ => []⟩).deleted = [] ∧
      (run_command ⟨"n", "r", "p", "s", "f", 0⟩ "("
          ⟨false, .matched 0, "", true, true, fun _ _ => []⟩).result =
        .error (.syntaxError "(") :=
  ⟨rfl, rfl⟩

/-- C5 (amended): a dispatch of a command with balanced parentheses while
the process handle reports not-alive fails with the fatal dead-session
error, returns no boolean outcome, sends nothing, and deletes the session's
result file exactly when that file exists on disk. -/
theorem run_command_dead_fatal (s : Session) (command : String) (env : Env)
    (hbal : countChar command '(' = countChar command ')') (hdead : env.alive = false) :
    run_command s command env =
      { result := .error .sessionDead, sent := [], warnings := [],
        deleted := if env.rawFileExists then [s.raw_file] else [] } := by
  unfold run_command
  rw [if_neg (fun hc => hc hbal), hdead]
  simp

theorem run_command_dead_fatal_witness :
    countChar "(x)" '(' = countChar "(x)" ')' ∧
      run_command ⟨"n", "r", "p", "s", "f", 0⟩ "(x)"
          ⟨false, .matched 0, "", true, true, fun _ _ => []⟩ =
        { result := .error .sessionDead, sent := [], warnings := [], deleted := ["r"] } :=
  ⟨by decide,
    run_command_dead_fatal ⟨"n", "r", "p", "s", "f", 0⟩ "(x)"
      ⟨false, .matched 0, "", true, true, fun _ _ => []⟩ (by decide) rfl⟩

/-- C6 counterexample: on a live session and a well-formed command, an
outcome other than a prompt match is not always downgraded — when the wait
ends in a pexpect exception (stream closed), `run_command` re-raises it as
the fatal normalized `RuntimeError` and emits no warning, contradicting the
claim that such outcomes yield a warning plus `False`. -/
theorem run_command_stream_closed_cex :
    (run_command ⟨"n", "r", "p", "s", "f", 0⟩ "(sclRun \"all\")"
        ⟨true, .closed "End Of File (EOF)", "", true, true, fun _ _ => []⟩).result =
      .error (.pexpectError "(sclRun \"all\")" "End Of File (EOF)") ∧
      (run_command ⟨"n", "r", "p", "s", "f", 0⟩ "(sclRun \"all\")"
          ⟨true, .closed "End Of File (EOF)", "", true, true, fun _ _ => []⟩).warnings = [] :=
  ⟨rfl, rfl⟩

/-- C6 (amended): on a live session and a balanced command, an unexpected
pattern index from the prompt wait is downgraded to a warning plus a
`False` return — no error is raised; but a pexpect transport exception
(stream closed) is instead re-raised as the fatal normalized
`RuntimeError`. -/
theorem run_command_transient_vs_fatal :
    (∀ (s : Session) (command : String) (env : Env) (r : Nat),
        countChar command '(' = countChar command ')' → env.alive = true →
        env.expectRes = .matched r → r ≠ 0 →
        (run_command s command env).result = .ok false ∧
          (run_command s command env).warnings = [crashWarning command]) ∧
      ∀ (s : Session) (command : String) (env : Env) (m : String),
        countChar command '(' = countChar command ')' → env.alive = true →
        env.expectRes = .closed m →
        (run_command s command env).result = .error (.pexpectError command m) := by
  constructor
  · intro s command env r hbal halive hres hr
    unfold run_command
    rw [if_neg (fun hc => hc hbal), halive, hres]
    simp [hr]
  · intro s command env m hbal halive hres
    unfold run_command
    rw [if_neg (fun hc => hc hbal), halive, hres]
    rfl

theorem run_command_transient_vs_fatal_witness :
    ((run_command ⟨"n", "r", "p", "s", "f", 0⟩ "(x)"
          ⟨true, .matched 1, "", true, true, fun _ _ => []⟩).result = .ok false ∧
        (run_command ⟨"n", "r", "p", "s", "f", 0⟩ "(x)"
            ⟨true, .matched 1, "", true, true, fun _ _ => []⟩).warnings =
          [crashWarning "(x)"]) ∧
      (run_command ⟨"n", "r", "p", "s", "f", 0⟩ "(x)"
          ⟨true, .closed "EOF", "", true, true, fun _ _ => []⟩).result =
        .error (.pexpectError "(x)" "EOF") :=
  ⟨run_command_transient_vs_fatal.1 ⟨"n", "r", "p", "s", "f", 0⟩ "(x)"
      ⟨true, .matched 1, "", true, true, fun _ _ => []⟩ 1 (by decide) rfl rfl (by decide),
    run_command_transient_vs_fatal.2 ⟨"n", "r", "p", "s", "f", 0⟩ "(x)"
      ⟨true, .closed "EOF", "", true, true, fun _ _ => []⟩ "EOF" (by decide) rfl rfl⟩

/-- Errors raised by `read_results` (core.py lines 106-139): missing or
unreadable raw file. -/
inductive ReadErr where
  | fileNotFound (path : String)
  | permissionDenied (path : String)

/-- Embedding of `read_results` (core.py lines 106-139): check the raw file exists and is
readable, then hand the byte offset to the external decoder
`plot_dict (read_raw raw_file off_set)`. -/
def read_results (env : Env) (raw_file : String) (offset : Nat) :
    Except ReadErr (List (String × Nat)) :=
  if ¬ env.rawFileExists then .error (.fileNotFound raw_file)
  else if ¬ env.rawFileReadable then .error (.permissionDenied raw_file)
  else .ok (env.decoder raw_file offset)

/-- Errors observable from `run_all` / `run_analysis`: a `run_command`
`RuntimeError` or a `read_results` resource error. -/
inductive SesErr where
  | rc (e : RCErr)
  | read (e : ReadErr)

/-- Result of `run_all` / `run_analysis`: the returned mapping or raised
error, the session as left behind, and the dispatch's side effects. -/
structure RunOut where
  result : Except SesErr (List (String × Nat))
  session : Session
  io : RCOut

/-- Python `res.get(key, default)` on the decoder's mapping, as an association-list
lookup (decoder mappings have unique keys). -/
def dictGet (m : List (String × Nat)) (key : String) : Option Nat :=
  (m.find? (fun p => p.1 == key)).map Prod.snd

/-- The command text dispatched by `run_all` (core.py line 469). -/
def runAllCmd : String := "(sclRun \"all\")"

/-- The command text dispatched by `run_analysis` (core.py line 494). -/
def runAnalysisCmd (analysis : String) : String :=
  "(sclRunAnalysis (sclGetAnalysis \"" ++ analysis ++ "\"))"

/-- Embedding of `run_all` (core.py lines 453-472): dispatch `(sclRun "all")`, decode the
raw file starting at the stored offset, store `res.get('offset', 0)` back
into `session.offset`, and return the mapping with the `offset` entry
stripped. -/
def run_all (s : Session) (env : Env) : RunOut :=
  match (run_command s runAllCmd env).result with
  | .error e =>
      { result := .error (.rc e), session := s, io := run_command s runAllCmd env }
  | .ok _ =>
    match read_results env s.raw_file s.offset with
    | .error e =>
        { result := .error (.read e), session := s, io := run_command s runAllCmd env }
    | .ok res =>
        { result := .ok (res.filter (fun p => p.1 != "offset"))
          session := { s with offset := (dictGet res "offset").getD 0 }
          io := run_command s runAllCmd env }

/-- Embedding of `run_analysis` (core.py lines 475-496): dispatch the named-analysis
command, then re-read the whole raw file from its start (`read_results`
with its default offset 0) and return the decoded mapping unfiltered. -/
def run_analysis (s : Session) (analysis : String) (env : Env) : RunOut :=
  match (run_command s (runAnalysisCmd analysis) env).result with
  | .error e =>
      { result := .error (.rc e), session := s, io := run_command s (runAnalysisCmd analysis) env }
  | .ok _ =>
    match read_results env s.raw_file 0 with
    | .error e =>
        { result := .error (.read e), session := s,
          io := run_command s (runAnalysisCmd analysis) env }
    | .ok res =>
        { result := .ok res, session := s, io := run_command s (runAnalysisCmd analysis) env }

/-- C1 counterexample: the stored offset is not monotone across consecutive
`run_all` calls — a first call whose decoder result carries an `offset`
sentinel of 128 leaves `session.offset = 128`, and a second call whose
decoder result lacks an `offset` entry resets it to 0 via
`res.get('offset', 0)`. -/
theorem run_all_offset_resets_cex :
    (run_all ⟨"n", "r", "p", "s", "f", 0⟩
        ⟨true, .matched 0, "", true, true, fun _ _ => [("offset", 128)]⟩).session.offset = 128 ∧
      (run_all
          (run_all ⟨"n", "r", "p", "s", "f", 0⟩
              ⟨true, .matched 0, "", true, true, fun _ _ => [("offset", 128)]⟩).session
          ⟨true, .matched 0, "", true, true, fun _ _ => [("tran", 1)]⟩).session.offset = 0 :=
  ⟨rfl, rfl⟩

/-- C1 (amended): after a `run_all` whose dispatch and read succeed, the
stored offset equals the decoder result's `offset` entry when present and 0
otherwise; consequently it does not decrease exactly when the decoder
reports an `offset` entry at least as large as the previous offset, and it
resets to 0 when the entry is absent. -/
theorem run_all_offset_update (s : Session) (env : Env) (r : Nat)
    (halive : env.alive = true) (hres : env.expectRes = .matched r)
    (hex : env.rawFileExists = true) (hrd : env.rawFileReadable = true) :
    (run_all s env).session.offset =
        (dictGet (env.decoder s.raw_file s.offset) "offset").getD 0 ∧
      ∀ n, dictGet (env.decoder s.raw_file s.offset) "offset" = some n →
        s.offset ≤ n → s.offset ≤ (run_all s env).session.offset := by
  have h1 : (run_command s runAllCmd env).result = .ok (r == 0) := by
    unfold run_command
    rw [if_neg (by decide), halive, hres]
    rfl
  have h2 : read_results env s.raw_file s.offset = .ok (env.decoder s.raw_file s.offset) := by
    unfold read_results
    rw [hex, hrd]
    simp
  have h3 : (run_all s env).session.offset =
      (dictGet (env.decoder s.raw_file s.offset) "offset").getD 0 := by
    unfold run_all
    rw [h1, h2]
  refine ⟨h3, fun n hn hle => ?_⟩

  rw [h3, hn]
  exact hle

theorem run_all_offset_update_witness :
    ((⟨true, .matched 0, "", true, true, fun _ _ => [("offset", 128)]⟩ : Env).alive = true ∧
        (run_all ⟨"n", "r", "p", "s", "f", 3⟩
            ⟨true, .matched 0, "", true, true, fun _ _ => [("offset", 128)]⟩).session.offset =
          128) ∧
      (3 : Nat) ≤ 128 :=
  ⟨⟨rfl, by
      have h := (run_all_offset_update ⟨"n", "r", "p", "s", "f", 3⟩
        ⟨true, .matched 0, "", true, true, fun _ _ => [("offset", 128)]⟩ 0
        rfl rfl rfl rfl).1
      simpa [dictGet] using h⟩,
    by decide⟩

/-- C2: `run_all` sends the run-everything command, decodes at the stored
offset, stores the `offset` sentinel back into the session, and returns the
mapping with the sentinel stripped: with a decoder result of two datasets
plus an `offset` sentinel of 128, it returns exactly the two datasets and
leaves `session.offset = 128`. -/
theorem run_all_scenario (s : Session) (env : Env) (r : Nat) (a b : String) (x y : Nat)
    (halive : env.alive = true) (hres : env.expectRes = .matched r)
    (hex : env.rawFileExists = true) (hrd : env.rawFileReadable = true)
    (ha : a ≠ "offset") (hb : b ≠ "offset")
    (hdec : env.decoder s.raw_file s.offset = [(a, x), (b, y), ("offset", 128)]) :
    (run_all s env).io.sent = [runAllCmd] ∧
      (run_all s env).result = .ok [(a, x), (b, y)] ∧
      (run_all s env).session.offset = 128 := by
  have h1 : run_command s runAllCmd env =
      { result := .ok (r == 0), sent := [runAllCmd],
        warnings := if r ≠ 0 then [crashWarning runAllCmd] else [], deleted := [] } := by
    unfold run_command
    rw [if_neg (by decide), halive, hres]
    rfl
  have h2 : read_results env s.raw_file s.offset = .ok [(a, x), (b, y), ("offset", 128)] := by
    unfold read_results
    rw [hex, hrd, hdec]
    simp
  have ha1 : (a != "offset") = true := bne_iff_ne.mpr ha
  have hb1 : (b != "offset") = true := bne_iff_ne.mpr hb
  have ha2 : (a == "offset") = false := beq_eq_false_iff_ne.mpr ha
  have hb2 : (b == "offset") = false := beq_eq_false_iff_ne.mpr hb
  unfold run_all
  rw [h1, h2]
  simp [dictGet, List.find?, List.filter, ha1, hb1, ha2, hb2]

theorem run_all_scenario_witness :
    (⟨true, .matched 0, "", true, true,
          fun _ _ => [("one", 11), ("two", 22), ("offset", 128)]⟩ : Env).alive = true ∧
      ("one" : String) ≠ "offset" ∧
      (run_all ⟨"n", "r", "p", "s", "f", 0⟩
            ⟨true, .matched 0, "", true, true,
              fun _ _ => [("one", 11), ("two", 22), ("offset", 128)]⟩).io.sent = [runAllCmd] ∧
      (run_all ⟨"n", "r", "p", "s", "f", 0⟩
            ⟨true, .matched 0, "", true, true,
              fun _ _ => [("one", 11), ("two", 22), ("offset", 128)]⟩).result =
        .ok [("one", 11), ("two", 22)] ∧
      (run_all ⟨"n", "r", "p", "s", "f", 0⟩
            ⟨true, .matched 0, "", true, true,
              fun _ _ => [("one", 11), ("two", 22), ("offset", 128)]⟩).session.offset = 128 :=
  ⟨rfl, by decide,
    run_all_scenario ⟨"n", "r", "p", "s", "f", 0⟩
      ⟨true, .matched 0, "", true, true,
        fun _ _ => [("one", 11), ("two", 22), ("offset", 128)]⟩ 0 "one" "two" 11 22
      rfl rfl rfl rfl (by decide) (by decide) rfl⟩

/-- C10: `run_analysis` leaves every field of the session unchanged (in
particular the stored offset), and its result is either the decode of the
whole result file from byte 0 — not from the stored offset — or a
propagated dispatch error. -/
theorem run_analysis_frame (s : Session) (analysis : String) (env : Env) :
    (run_analysis s analysis env).session = s ∧
      ((run_analysis s analysis env).result =
          Except.mapError SesErr.read (read_results env s.raw_file 0) ∨
        ∃ e, (run_analysis s analysis env).result = .error (.rc e)) := by
  unfold run_analysis
  cases h : (run_command s (runAnalysisCmd analysis) env).result with
  | error e => exact ⟨rfl, Or.inr ⟨e, rfl⟩⟩
  | ok b =>
    cases h2 : read_results env s.raw_file 0 with
    | error e => exact ⟨rfl, Or.inl rfl⟩
    | ok res => exact ⟨rfl, Or.inl rfl⟩

/-- The world outside the control flow of the one-shot `simulate` path
(core.py lines 142-220): the netlist and raw files on disk, the exit code
the spectre subprocess will return, the log file's contents, and the
external decoder. -/
structure SimEnv where
  netExists : Bool
  netReadable : Bool
  returncode : Nat
  rawExists : Bool
  rawReadable : Bool
  logContents : String
  decoder : String → Nat → List (String × Nat)

/-- Exceptions escaping `simulate`: resource errors, the
`subprocess.CalledProcessError` raised by `run(..., check=True)` on a
non-zero exit code, and the `IOError` of the explicit exit-code branch. -/
inductive SimErr where
  | fileNotFound (path : String)
  | permissionDenied (path : String)
  | calledProcessError (code : Nat)
  | ioError (code : Nat)

/-- Result of `simulate`: the returned mapping or raised error, plus the
text printed to stdout. -/
structure SimOut where
  result : Except SimErr (List (String × Nat))
  printed : List String

/-- Python `subprocess.run(cmd, check=check, ...).returncode`: with `check` set, a
non-zero exit code raises `CalledProcessError` instead of being returned. -/
def pyRun (check : Bool) (returncode : Nat) : Except SimErr Nat :=
  if check && (returncode != 0) then .error (.calledProcessError returncode)
  else .ok returncode

/-- The tail of `simulate` (core.py lines 215-220): check the raw file
exists and is readable, decode it from byte 0 and drop the reserved
`offset` key. -/
def readRawChecked (env : SimEnv) (raw : String) (printed : List String) : SimOut :=
  if ¬ env.rawExists then { result := .error (.fileNotFound raw), printed }
  else if ¬ env.rawReadable then { result := .error (.permissionDenied raw), printed }
  else { result := .ok ((env.decoder raw 0).filter (fun p => p.1 != "offset")), printed }

/-- Embedding of `simulate` (core.py lines 142-220).  Path expansion and the log-option
construction are irrelevant to the claims and elided; the temporary raw
path of `raw_tmp` is abstracted as a name derived from the netlist path.
Note `run` is invoked with `check=True` (line 205), so the later
`if ret != 0` branch (lines 208-214) is reachable only for `ret = 0`. -/
def simulate (netlist_path : String) (raw_path : Option String) (log_path : Option String)
    (env : SimEnv) : SimOut :=
  if ¬ env.netExists then { result := .error (.fileNotFound netlist_path), printed := [] }
  else if ¬ env.netReadable then
    { result := .error (.permissionDenied netlist_path), printed := [] }
  else
    match pyRun true env.returncode with
    | .error e => { result := .error e, printed := [] }
    | .ok ret =>
      if ret ≠ 0 then
        match log_path with
        | some _ => readRawChecked env (raw_path.getD (netlist_path ++ ".raw")) [env.logContents]
        | none => { result := .error (.ioError ret), printed := [] }
      else readRawChecked env (raw_path.getD (netlist_path ++ ".raw")) []

/-- C9: the code contradicts the claimed (and docstring-documented)
behaviour on a non-zero spectre exit code — because `run` is called with
`check=True`, a `CalledProcessError` is raised before the exit-code branch,
so with a persistent log path supplied the log is not printed and no
`IOError` is ever produced. -/
theorem simulate_nonzero_exit_raises :
    simulate "net.scs" none (some "sim.log")
        ⟨true, true, 1, true, true, "SPECTRE LOG", fun _ _ => [("tran", 1)]⟩ =
      { result := .error (.calledProcessError 1), printed := [] } := rfl

/-- C3 counterexample: the reserved `offset` key is surfaced to the caller
by `run_analysis`, which returns the decoder's mapping without stripping
it. -/
theorem run_analysis_offset_surfaced_cex :
    (run_analysis ⟨"n", "r", "p", "s", "f", 5⟩ "tran"
        ⟨true, .matched 0, "", true, true, fun _ _ => [("offset", 7)]⟩).result =
      .ok [("offset", 7)] ∧
      "offset" ∈
        (((run_analysis ⟨"n", "r", "p", "s", "f", 5⟩ "tran"
              ⟨true, .matched 0, "", true, true,
                fun _ _ => [("offset", 7)]⟩).result.toOption.getD []).map Prod.fst) :=
  ⟨rfl, by decide⟩

/-- The `offset` key never survives the comprehension filter
`if n != 'offset'`. -/
theorem offset_not_mem_filtered (res : List (String × Nat)) :
    "offset" ∉ (res.filter (fun p => p.1 != "offset")).map Prod.fst := by
  intro h
  rcases List.mem_map.mp h with ⟨p, hp, hfst⟩
  rcases List.mem_filter.mp hp with ⟨_, hne⟩
  rw [hfst] at hne
  simp at hne

/-- C3 (amended): the one-shot `simulate` and `run_all` never surface the
reserved `offset` key in the mapping they return; `run_analysis`, by
contrast, returns the decoder's mapping unfiltered, so its result can
contain `offset`. -/
theorem offset_never_surfaced :
    (∀ (netlist_path : String) (raw_path log_path : Option String) (env : SimEnv)
        (m : List (String × Nat)) (pr : List String),
        simulate netlist_path raw_path log_path env = { result := .ok m, printed := pr } →
        "offset" ∉ m.map Prod.fst) ∧
      ∀ (s : Session) (env : Env) (m : List (String × Nat)),
        (run_all s env).result = .ok m → "offset" ∉ m.map Prod.fst := by
  constructor
  · intro netlist_path raw_path log_path env m pr h
    unfold simulate at h
    split at h
    · simp at h
    · split at h
      · simp at h
      · split at h
        · simp at h
        · rename_i ret hret
          split at h
          · split at h
            · unfold readRawChecked at h
              split at h
              · simp at h
              · split at h
                · simp at h
                · rw [SimOut.mk.injEq] at h
                  have hm := h.1
                  rw [Except.ok.injEq] at hm
                  rw [← hm]
                  exact offset_not_mem_filtered _
            · simp at h
          · unfold readRawChecked at h
            split at h
            · simp at h
            · split at h
              · simp at h
              · rw [SimOut.mk.injEq] at h
                have hm := h.1
                rw [Except.ok.injEq] at hm
                rw [← hm]
                exact offset_not_mem_filtered _
  · intro s env m h
    unfold run_all at h
    split at h
    · simp at h
    · split at h
      · simp at h
      · rw [Except.ok.injEq] at h
        rw [← h]
        exact offset_not_mem_filtered _

theorem offset_never_surfaced_witness :
    "offset" ∉ ([("a", (1 : Nat))].map Prod.fst) ∧
      "offset" ∉ ([("b", (2 : Nat))].map Prod.fst) :=
  ⟨offset_never_surfaced.1 "n" none none
      ⟨true, true, 0, true, true, "", fun _ _ => [("offset", 3), ("a", 1)]⟩ [("a", 1)] [] rfl,
    offset_never_surfaced.2 ⟨"n", "r", "p", "s", "f", 0⟩
      ⟨true, .matched 0, "", true, true, fun _ _ => [("b", 2), ("offset", 9)]⟩ [("b", 2)] rfl⟩

/-- The whitespace characters stripped by Python numeric parsing and
matched by the regex class `\s` (ASCII subset; the claims involve no
further Unicode space characters). -/
def isPySpace (c : Char) : Bool :=
  c == ' ' || c == '\t' || c == '\n' || c == '\r' || c == '\x0b' || c == '\x0c'

/-- Python `str.strip()` as used by `float(...)` on its argument. -/
def stripPy (l : List Char) : List Char :=
  ((l.dropWhile isPySpace).reverse.dropWhile isPySpace).reverse

/-- Value of a run of decimal digit characters. -/
def digitsToNat (l : List Char) : Nat :=
  l.foldl (fun acc c => 10 * acc + (c.toNat - '0'.toNat)) 0

def allDigits (l : List Char) : Bool := l.all Char.isDigit

/-- Decimal core of Python `float(string)` on plain literals: digits with at
most one decimal point and at least one digit overall. -/
def parseUnsigned (l : List Char) : Option ℚ :=
  match l.splitOn '.' with
  | [d] => if d ≠ [] ∧ allDigits d then some (digitsToNat d) else none
  | [d, f] =>
      if (d ≠ [] ∨ f ≠ []) ∧ allDigits d ∧ allDigits f then
        some ((digitsToNat d : ℚ) + (digitsToNat f : ℚ) / (10 : ℚ) ^ f.length)
      else none
  | _ => none

/-- Python `float(s)` on the decimal fragment the transcripts use (no
exponents, infinities or NaN): strip whitespace, optional sign, decimal
literal; `none` models the raised `ValueError`. -/
def pyFloat (s : String) : Option ℚ :=
  match stripPy s.toList with
  | '-' :: rest => (parseUnsigned rest).map (fun q => -q)
  | '+' :: rest => parseUnsigned rest
  | l => parseUnsigned l

/-- Python `text.split('\n')` on a character list: split at every newline,
producing one more segment than there are newlines. -/
def pySplitNL : List Char → List (List Char)
  | [] => [[]]
  | c :: cs =>
    if c = '\n' then [] :: pySplitNL cs
    else
      match pySplitNL cs with
      | [] => [[c]]
      | p :: ps => (c :: p) :: ps

/-- Python `transcript.split('\n')[-1]`: the text after the final newline,
possibly empty. -/
def lastSegment (t : String) : String := ((pySplitNL t.toList).getLastD []).asString

/-- Exceptions escaping `get_parameter`: a propagated dispatch error, or the
`ValueError` raised by `float(...)` on a non-numeric final segment. -/
inductive GetErr where
  | rc (e : RCErr)
  | valueError

/-- Command text built by `get_parameter` (core.py line 567). -/
def getParameterCmd (param : String) : String :=
  "(sclGetAttribute (sclGetParameter (sclGetCircuit \"\") \"" ++ param ++ "\") \"value\")"

/-- Embedding of `get_parameter` (core.py lines 550-569): dispatch the
getter command (its boolean outcome is ignored), then parse
`float(repl.before.decode().split('\n')[-1])`. -/
def get_parameter (s : Session) (param : String) (env : Env) : Except GetErr ℚ :=
  match (run_command s (getParameterCmd param) env).result with
  | .error e => .error (.rc e)
  | .ok _ =>
    match pyFloat (lastSegment env.before) with
    | some q => .ok q
    | none => .error .valueError

/-- Reading of the claim, defined from the spec's words: take the last
non-empty line of the transcript and parse it as a numeric value. -/
def specScalarOfTranscript (t : String) : Option ℚ :=
  pyFloat ((((pySplitNL t.toList).filter (fun l => l != ([] : List Char))).getLastD []).asString)

/-- C7 counterexample: `get_parameter` does not parse the last non-empty
line — the code indexes `split('\n')[-1]`, so on the transcript `"5.0\n"`
(whose final segment is empty) it raises `ValueError` and returns no
scalar, while the spec's reading parses the last non-empty line `"5.0"` to
a scalar (5). -/
theorem get_parameter_last_line_cex :
    get_parameter ⟨"n", "r", "p", "s", "f", 0⟩ "w"
        ⟨true, .matched 0, "5.0\n", true, true, fun _ _ => []⟩ = .error .valueError ∧
      (specScalarOfTranscript "5.0\n").isSome = true :=
  ⟨rfl, rfl⟩

/-- A nonempty list has the same `getLastD` whatever the default. -/
theorem getLastD_of_ne_nil {α : Type} (l : List α) (a b : α) (h : l ≠ []) :
    l.getLastD a = l.getLastD b := by
  cases l with
  | nil => exact absurd rfl h
  | cons x xs => rw [List.getLastD_cons, List.getLastD_cons]

/-- If the last element of a list is not the default `d`, filtering out the
occurrences of `d` keeps the same last element. -/
theorem filter_ne_getLastD {α : Type} [BEq α] [LawfulBEq α] (d : α) (L : List α)
    (h : L.getLastD d ≠ d) :
    (L.filter (fun l => l != d)).getLastD d = L.getLastD d := by
  induction L with
  | nil => exact absurd rfl h
  | cons x xs ih =>
    cases xs with
    | nil =>
      have hx : (x != d) = true :=
        bne_iff_ne.mpr (by simpa [List.getLastD_cons, List.getLastD_nil] using h)
      simp [List.filter_cons, hx, List.getLastD_cons, List.getLastD_nil]
    | cons y ys =>
      have h' : (y :: ys).getLastD d ≠ d := by
        simpa [List.getLastD_cons,
          getLastD_of_ne_nil (y :: ys) x d (List.cons_ne_nil y ys)] using h
      have hf := ih h'
      have hfne : (y :: ys).filter (fun l => l != d) ≠ [] := by
        intro hnil
        rw [hnil] at hf
        exact h' (by simpa [List.getLastD_nil] using hf.symm)
      have hcc : (x :: y :: ys).getLastD d = (y :: ys).getLastD d := by
        rw [List.getLastD_cons]
        exact getLastD_of_ne_nil (y :: ys) x d (List.cons_ne_nil y ys)
      by_cases hx : x = d
      · have hx1 : (x != d) = false := by simp [hx]
        rw [List.filter_cons, if_neg (by simp [hx1]), hf, hcc]
      · have hx1 : (x != d) = true := bne_iff_ne.mpr hx
        rw [List.filter_cons, if_pos hx1, List.getLastD_cons,
          getLastD_of_ne_nil _ x d hfne, hf, hcc]

/-- C7 (amended): `get_parameter` parses the transcript's final
newline-separated segment (which may be empty); whenever that final segment
is non-empty it coincides with the last non-empty line, so on such
transcripts the returned scalar is the spec's parse of the last non-empty
line, and a parse failure raises `ValueError`. -/
theorem get_parameter_parses_last_segment (s : Session) (param : String) (env : Env) (r : Nat)
    (hbal : countChar (getParameterCmd param) '(' = countChar (getParameterCmd param) ')')
    (halive : env.alive = true) (hres : env.expectRes = .matched r)
    (hne : lastSegment env.before ≠ "") :
    get_parameter s param env =
      match specScalarOfTranscript env.before with
      | some q => .ok q
      | none => .error .valueError := by
  have h1 : (run_command s (getParameterCmd param) env).result = .ok (r == 0) := by
    unfold run_command
    rw [if_neg (fun hc => hc hbal), halive, hres]
    rfl
  have hne' : (pySplitNL env.before.toList).getLastD [] ≠ [] := by
    intro hn
    apply hne
    unfold lastSegment
    rw [hn]
    rfl
  have h2 := filter_ne_getLastD ([] : List Char) (pySplitNL env.before.toList) hne'
  unfold get_parameter specScalarOfTranscript lastSegment
  rw [h1, h2]

theorem get_parameter_parses_last_segment_witness :
    lastSegment "a\n2.5" ≠ "" ∧
      get_parameter ⟨"n", "r", "p", "s", "f", 0⟩ "w"
          ⟨true, .matched 0, "a\n2.5", true, true, fun _ _ => []⟩ =
        match specScalarOfTranscript "a\n2.5" with
        | some q => .ok q
        | none => .error .valueError :=
  ⟨by decide,
    get_parameter_parses_last_segment ⟨"n", "r", "p", "s", "f", 0⟩ "w"
      ⟨true, .matched 0, "a\n2.5", true, true, fun _ _ => []⟩ 0 (by decide) rfl rfl (by decide)⟩

/-- Character class `[^"]` of the listing regexes. -/
def nq (c : Char) : Bool := c != '"'

/-- Character class `[^"\)]` of the attribute regexes. -/
def nqp (c : Char) : Bool := c != '"' && c != ')'

/-- Match one literal character at the head of the input. -/
def expectChar (c : Char) : List Char → Option (List Char)
  | [] => none
  | x :: xs => if x = c then some xs else none

/-- Greedy `+` over a character class: the non-empty maximal run satisfying
`p` and the rest. -/
def takeWhile1 (p : Char → Bool) (l : List Char) : Option (List Char × List Char) :=
  if l.takeWhile p = [] then none
  else some (l.takeWhile p, l.drop (l.takeWhile p).length)

/-- Shared stem of the listing regexes: an opening parenthesis, a quoted
non-empty name (`[^"]+` between quotes), then whitespace (`\s+`).  Returns
the captured name and the rest of the input.  Each greedy run is exact
because the character that must follow it is excluded from its class. -/
def matchNameWs (l : List Char) : Option (List Char × List Char) :=
  (expectChar '(' l).bind fun l1 =>
  (expectChar '"' l1).bind fun l2 =>
  (takeWhile1 nq l2).bind fun nr =>
  (expectChar '"' nr.2).bind fun l4 =>
  (takeWhile1 isPySpace l4).map fun wr => (nr.1, wr.2)

/-- One match at the head of the input of the strict quoted-pair regex
used by `list_analyses` (core.py line 658), `list_analysis_types` and
`list_instances`: open parenthesis, quoted non-empty name, whitespace,
quoted non-empty value, close parenthesis; yields the two captures and the
rest after the match. -/
def matchStrictAt (l : List Char) : Option ((List Char × List Char) × List Char) :=
  (matchNameWs l).bind fun nw =>
  (expectChar '"' nw.2).bind fun l5 =>
  (takeWhile1 nq l5).bind fun vr =>
  (expectChar '"' vr.2).bind fun l6 =>
  (expectChar ')' l6).map fun l7 => ((nw.1, vr.1), l7)

/-- Tail of the attribute regexes after the name and whitespace: an
optional quote, a possibly-empty `[^"\)]*` value, an optional quote and a
closing parenthesis, with the regex backtracking resolved — the star can
contain neither quote nor closing parenthesis, so only the two shapes
below can complete a match. -/
def matchAttrCore (l : List Char) : Option (List Char × List Char) :=
  match l.drop (l.takeWhile nqp).length with
  | '"' :: ')' :: rest => some (l.takeWhile nqp, rest)
  | ')' :: rest => some (l.takeWhile nqp, rest)
  | _ => none

/-- The leading optional quote of the attribute value: the regex prefers to
consume a present quote and falls back to leaving it if the rest of the
pattern then fails. -/
def matchAttrTail (l : List Char) : Option (List Char × List Char) :=
  match l with
  | '"' :: rest =>
    match matchAttrCore rest with
    | some r => some r
    | none => matchAttrCore l
  | _ => matchAttrCore l

/-- One match at the head of the input of the attribute regex used by
`get_circuit_parameter` (core.py line 928), `get_analysis_parameter` and
`get_instance_parameter`: unlike the strict pair regex, the value may be
empty and unquoted. -/
def matchAttrAt (l : List Char) : Option ((List Char × List Char) × List Char) :=
  (matchNameWs l).bind fun nw =>
  (matchAttrTail nw.2).map fun vr => ((nw.1, vr.1), vr.2)

/-- Python `re.findall` of the strict pair regex: leftmost non-overlapping
matches, scanning forward one character on failure.  Fuel-based structural
recursion; fuel `l.length` always suffices since a match consumes at least
one character. -/
def findAllStrictAux : Nat → List Char → List (String × String)
  | 0, _ => []
  | _ + 1, [] => []
  | fuel + 1, c :: cs =>
    match matchStrictAt (c :: cs) with
    | some (nv, rest) => (nv.1.asString, nv.2.asString) :: findAllStrictAux fuel rest
    | none => findAllStrictAux fuel cs

def findAllStrict (l : List Char) : List (String × String) := findAllStrictAux l.length l

/-- Python `re.findall` of the attribute regex, as `findAllStrict`. -/
def findAllAttrAux : Nat → List Char → List (String × String)
  | 0, _ => []
  | _ + 1, [] => []
  | fuel + 1, c :: cs =>
    match matchAttrAt (c :: cs) with
    | some (nv, rest) => (nv.1.asString, nv.2.asString) :: findAllAttrAux fuel rest
    | none => findAllAttrAux fuel cs

def findAllAttr (l : List Char) : List (String × String) := findAllAttrAux l.length l

/-- Python `' '.join(segments)` on character lists. -/
def joinSp : List (List Char) → List Char
  | [] => []
  | [x] => x
  | x :: y :: ys => x ++ ' ' :: joinSp (y :: ys)

/-- Decode step shared by `list_analyses` (core.py lines 657-658),
`list_analysis_types` and `list_instances`: drop the first transcript line,
join the rest with spaces, and scan with the strict pair regex. -/
def list_analyses_decode (t : String) : List (String × String) :=
  findAllStrict (joinSp ((pySplitNL t.toList).drop 1))

/-- Decode step of `get_circuit_parameter` (core.py lines 927-928) and
`get_analysis_parameter`: as `list_analyses_decode` but with the attribute
regex. -/
def get_circuit_parameter_decode (t : String) : List (String × String) :=
  findAllAttr (joinSp ((pySplitNL t.toList).drop 1))

/-- Command text of `list_analyses` (core.py line 655). -/
def listAnalysesCmd : String := "(sclListAnalysis)"

/-- Embedding of `list_analyses` (core.py lines 635-658). -/
def list_analyses (s : Session) (env : Env) : Except RCErr (List (String × String)) :=
  match (run_command s listAnalysesCmd env).result with
  | .error e => .error e
  | .ok _ => .ok (list_analyses_decode env.before)

/-- Command text of `get_circuit_parameter` (core.py line 925). -/
def getCircuitParameterCmd (circuit_parameter : String) : String :=
  "(sclListAttribute (sclGetParameter (sclGetCircuit \"\") \"" ++ circuit_parameter ++ "\"))"

/-- Embedding of `get_circuit_parameter` (core.py lines 900-928). -/
def get_circuit_parameter (s : Session) (circuit_parameter : String) (env : Env) :
    Except RCErr (List (String × String)) :=
  match (run_command s (getCircuitParameterCmd circuit_parameter) env).result with
  | .error e => .error e
  | .ok _ => .ok (get_circuit_parameter_decode env.before)

/-- Reading of the claim's hypothesis, defined from the spec's words: a
quoted two-element string group `("name" "value")` — a parenthesised pair
of quoted strings with non-empty name and possibly empty value (the spec's
scenario E lists `("tolerance" "")` as a well-formed group). -/
def matchSpecGroupAt (l : List Char) : Option (List Char) :=
  (matchNameWs l).bind fun nw =>
  (expectChar '"' nw.2).bind fun l5 =>
  (expectChar '"' (l5.drop (l5.takeWhile nq).length)).bind fun l6 =>
  expectChar ')' l6

/-- A transcript contains a quoted two-element string group somewhere. -/
def specHasQuotedPairGroup : List Char → Bool
  | [] => false
  | c :: cs => (matchSpecGroupAt (c :: cs)).isSome || specHasQuotedPairGroup cs

/-- The strict pair regex matches somewhere in the input. -/
def hasStrict : List Char → Bool
  | [] => false
  | c :: cs => (matchStrictAt (c :: cs)).isSome || hasStrict cs

/-- C8 counterexample: a transcript containing zero quoted two-element
string groups on which a listing accessor returns a non-empty sequence —
the attribute regex of `get_circuit_parameter` also matches groups whose
second element is unquoted, so the transcript `"h\n(\"a\" 1)"` (no quoted
pair anywhere) decodes to `[("a", "1")]`. -/
theorem get_circuit_parameter_no_pairs_cex :
    specHasQuotedPairGroup ("h\n(\"a\" 1)").toList = false ∧
      get_circuit_parameter ⟨"n", "r", "p", "s", "f", 0⟩ "vdd"
          ⟨true, .matched 0, "h\n(\"a\" 1)", true, true, fun _ _ => []⟩ =
        .ok [("a", "1")] :=
  ⟨by decide, rfl⟩

theorem findAllStrictAux_nil (fuel : Nat) (l : List Char) (h : hasStrict l = false) :
    findAllStrictAux fuel l = [] := by
  induction fuel generalizing l with
  | zero => rfl
  | succ f ih =>
    cases l with
    | nil => rfl
    | cons c cs =>
      rw [hasStrict] at h
      cases hm : matchStrictAt (c :: cs) with
      | some v => rw [hm] at h; simp at h
      | none =>
        rw [hm] at h
        simp only [Option.isSome_none, Bool.false_or] at h
        unfold findAllStrictAux
        rw [hm]
        exact ih cs h

/-- The character map induced by joining newline-split segments with
spaces: every newline becomes a space, everything else is unchanged. -/
def nlToSp (c : Char) : Char := if c = '\n' then ' ' else c

theorem nlToSp_eq_iff {c : Char} (h1 : c ≠ '\n') (h2 : c ≠ ' ') (x : Char) :
    nlToSp x = c ↔ x = c := by
  unfold nlToSp
  by_cases hx : x = '\n'
  · rw [if_pos hx, hx]
    constructor
    · intro hc; exact absurd hc.symm h2
    · intro hc; exact absurd hc.symm h1
  · rw [if_neg hx]

theorem nq_nlToSp (c : Char) : nq (nlToSp c) = nq c := by
  unfold nlToSp
  by_cases hx : c = '\n'
  · rw [if_pos hx, hx]; decide
  · rw [if_neg hx]

theorem isPySpace_nlToSp (c : Char) : isPySpace (nlToSp c) = isPySpace c := by
  unfold nlToSp
  by_cases hx : c = '\n'
  · rw [if_pos hx, hx]; decide
  · rw [if_neg hx]

theorem expectChar_map {c : Char} (h1 : c ≠ '\n') (h2 : c ≠ ' ') (l : List Char) :
    expectChar c (l.map nlToSp) = (expectChar c l).map (List.map nlToSp) := by
  cases l with
  | nil => rfl
  | cons x xs =>
    simp only [List.map_cons, expectChar]
    by_cases hx : x = c
    · rw [if_pos ((nlToSp_eq_iff h1 h2 x).mpr hx), if_pos hx]
      rfl
    · rw [if_neg (fun hc => hx ((nlToSp_eq_iff h1 h2 x).mp hc)), if_neg hx]
      rfl

theorem takeWhile_map_pres (p : Char → Bool) (hp : ∀ c, p (nlToSp c) = p c) (l : List Char) :
    (l.map nlToSp).takeWhile p = (l.takeWhile p).map nlToSp := by
  induction l with
  | nil => rfl
  | cons x xs ih =>
    simp only [List.map_cons, List.takeWhile_cons, hp x]
    cases hpx : p x with
    | true => simp [ih]
    | false => simp

theorem takeWhile1_map (p : Char → Bool) (hp : ∀ c, p (nlToSp c) = p c) (l : List Char) :
    takeWhile1 p (l.map nlToSp) =
      (takeWhile1 p l).map (fun r => (r.1.map nlToSp, r.2.map nlToSp)) := by
  unfold takeWhile1
  rw [takeWhile_map_pres p hp l]
  by_cases h : l.takeWhile p = []
  · rw [if_pos (by rw [h]; rfl), if_pos h]
    rfl
  · rw [if_neg (by simpa using h), if_neg h]
    simp [List.map_drop, List.length_map]

theorem matchNameWs_map (l : List Char) :
    matchNameWs (l.map nlToSp) =
      (matchNameWs l).map (fun r => (r.1.map nlToSp, r.2.map nlToSp)) := by
  unfold matchNameWs
  rw [expectChar_map (by decide) (by decide) l]
  cases expectChar '(' l with
  | none => rfl
  | some l1 =>
    simp only [Option.map_some', Option.some_bind]
    rw [expectChar_map (by decide) (by decide) l1]
    cases expectChar '"' l1 with
    | none => rfl
    | some l2 =>
      simp only [Option.map_some', Option.some_bind]
      rw [takeWhile1_map nq nq_nlToSp l2]
      cases takeWhile1 nq l2 with
      | none => rfl
      | some nr =>
        simp only [Option.map_some', Option.some_bind]
        rw [expectChar_map (by decide) (by decide) nr.2]
        cases expectChar '"' nr.2 with
        | none => rfl
        | some l4 =>
          simp only [Option.map_some', Option.some_bind]
          rw [takeWhile1_map isPySpace isPySpace_nlToSp l4]
          cases takeWhile1 isPySpace l4 with
          | none => rfl
          | some wr => rfl

theorem matchStrictAt_map (l : List Char) :
    (matchStrictAt (l.map nlToSp)).isSome = (matchStrictAt l).isSome := by
  unfold matchStrictAt
  rw [matchNameWs_map l]
  cases matchNameWs l with
  | none => rfl
  | some nw =>
    simp only [Option.map_some', Option.some_bind]
    rw [expectChar_map (by decide) (by decide) nw.2]
    cases expectChar '"' nw.2 with
    | none => rfl
    | some l5 =>
      simp only [Option.map_some', Option.some_bind]
      rw [takeWhile1_map nq nq_nlToSp l5]
      cases takeWhile1 nq l5 with
      | none => rfl
      | some vr =>
        simp only [Option.map_some', Option.some_bind]
        rw [expectChar_map (by decide) (by decide) vr.2]
        cases expectChar '"' vr.2 with
        | none => rfl
        | some l6 =>
          simp only [Option.map_some', Option.some_bind]
          rw [expectChar_map (by decide) (by decide) l6]
          cases expectChar ')' l6 with
          | none => rfl
          | some l7 => rfl

theorem hasStrict_map (l : List Char) : hasStrict (l.map nlToSp) = hasStrict l := by
  induction l with
  | nil => rfl
  | cons c cs ih =>
    simp only [List.map_cons, hasStrict]
    rw [← List.map_cons nlToSp c cs, matchStrictAt_map (c :: cs), ih]

theorem hasStrict_append (l1 l2 : List Char) (h : hasStrict l2 = true) :
    hasStrict (l1 ++ l2) = true := by
  induction l1 with
  | nil => simpa using h
  | cons c cs ih =>
    simp only [List.cons_append, hasStrict, List.append_eq]
    rw [ih]
    simp

theorem matchSpecGroupAt_of_strict (l : List Char) (h : (matchStrictAt l).isSome = true) :
    (matchSpecGroupAt l).isSome = true := by
  unfold matchStrictAt at h
  unfold matchSpecGroupAt
  cases hnw : matchNameWs l with
  | none => rw [hnw] at h; simp at h
  | some nw =>
    rw [hnw] at h
    simp only [Option.some_bind] at h ⊢
    cases h5 : expectChar '"' nw.2 with
    | none => rw [h5] at h; simp at h
    | some l5 =>
      rw [h5] at h
      simp only [Option.some_bind] at h ⊢
      cases hv : takeWhile1 nq l5 with
      | none => rw [hv] at h; simp at h
      | some vr =>
        rw [hv] at h
        simp only [Option.some_bind] at h
        have hvr2 : vr.2 = l5.drop (l5.takeWhile nq).length := by
          unfold takeWhile1 at hv
          by_cases hnil : l5.takeWhile nq = []
          · rw [if_pos hnil] at hv
            exact absurd hv (by simp)
          · rw [if_neg hnil] at hv
            rw [Option.some.injEq] at hv
            rw [← hv]
        rw [← hvr2]
        cases h6 : expectChar '"' vr.2 with
        | none => rw [h6] at h; simp at h
        | some l6 =>
          rw [h6] at h
          simp only [Option.some_bind] at h ⊢
          cases h7 : expectChar ')' l6 with
          | none => rw [h7] at h; simp at h
          | some l7 => rfl

theorem specHas_of_hasStrict (l : List Char) (h : hasStrict l = true) :
    specHasQuotedPairGroup l = true := by
  induction l with
  | nil => simp [hasStrict] at h
  | cons c cs ih =>
    rw [hasStrict] at h
    rw [specHasQuotedPairGroup]
    rcases Bool.or_eq_true_iff.mp h with h1 | h2
    · rw [matchSpecGroupAt_of_strict _ h1]
      simp
    · rw [ih h2]
      simp

theorem joinSp_nil : joinSp [] = [] := rfl

theorem joinSp_single (x : List Char) : joinSp [x] = x := rfl

theorem joinSp_cons₂ (x y : List Char) (ys : List (List Char)) :
    joinSp (x :: y :: ys) = x ++ ' ' :: joinSp (y :: ys) := rfl

theorem pySplitNL_ne_nil (l : List Char) : pySplitNL l ≠ [] := by
  cases l with
  | nil => simp [pySplitNL]
  | cons c cs =>
    unfold pySplitNL
    by_cases hc : c = '\n'
    · rw [if_pos hc]; simp
    · rw [if_neg hc]
      cases pySplitNL cs <;> simp

theorem joinSp_pySplitNL (l : List Char) : joinSp (pySplitNL l) = l.map nlToSp := by
  induction l with
  | nil => rfl
  | cons c cs ih =>
    unfold pySplitNL
    by_cases hc : c = '\n'
    · rw [if_pos hc, hc]
      cases hp : pySplitNL cs with
      | nil => exact absurd hp (pySplitNL_ne_nil cs)
      | cons p ps =>
        rw [joinSp_cons₂, ← hp, ih, List.map_cons]
        rfl
    · rw [if_neg hc]
      have hnl : nlToSp c = c := by unfold nlToSp; rw [if_neg hc]
      cases hp : pySplitNL cs with
      | nil => exact absurd hp (pySplitNL_ne_nil cs)
      | cons p ps =>
        cases ps with
        | nil =>
          have hj : joinSp [p] = List.map nlToSp cs := by rw [← hp]; exact ih
          rw [joinSp_single] at hj
          rw [joinSp_single, List.map_cons, hnl, hj]
        | cons q qs =>
          have hj : joinSp (p :: q :: qs) = List.map nlToSp cs := by rw [← hp]; exact ih
          rw [joinSp_cons₂] at hj
          rw [joinSp_cons₂, List.map_cons, hnl, ← hj, List.cons_append]

theorem hasStrict_joinSp_tail (xs : List (List Char))
    (h : hasStrict (joinSp (xs.drop 1)) = true) : hasStrict (joinSp xs) = true := by
  cases xs with
  | nil => simpa using h
  | cons x ys =>
    cases ys with
    | nil =>
      rw [List.drop_one, List.tail_cons, joinSp_nil] at h
      simp [hasStrict] at h
    | cons y ys' =>
      rw [List.drop_one, List.tail_cons] at h
      rw [joinSp_cons₂]
      have hsplit : x ++ ' ' :: joinSp (y :: ys') = (x ++ [' ']) ++ joinSp (y :: ys') := by
        rw [List.append_assoc]
        rfl
      rw [hsplit]
      exact hasStrict_append _ _ h

/-- C8 (amended): on a transcript containing zero quoted two-element string
groups, the listing accessors whose regex requires both elements quoted and
non-empty (`list_analyses`, `list_analysis_types`, `list_instances`) return
an empty ordered sequence, not an error; the attribute accessors
(`get_circuit_parameter`, `get_analysis_parameter`,
`get_instance_parameter`) are likewise total and error-free, but their
regex also accepts groups with an unquoted second element, so they can
return such degenerate matches. -/
theorem list_analyses_empty_on_no_groups (s : Session) (env : Env) (r : Nat)
    (halive : env.alive = true) (hres : env.expectRes = .matched r)
    (hng : specHasQuotedPairGroup env.before.toList = false) :
    list_analyses s env = .ok [] := by
  have h1 : (run_command s listAnalysesCmd env).result = .ok (r == 0) := by
    unfold run_command
    rw [if_neg (by decide), halive, hres]
    rfl
  have hns : hasStrict (joinSp ((pySplitNL env.before.toList).drop 1)) = false := by
    cases hb : hasStrict (joinSp ((pySplitNL env.before.toList).drop 1)) with
    | false => rfl
    | true =>
      exfalso
      have h3 := hasStrict_joinSp_tail (pySplitNL env.before.toList) hb
      rw [joinSp_pySplitNL, hasStrict_map] at h3
      have h4 := specHas_of_hasStrict _ h3
      rw [hng] at h4
      exact Bool.false_ne_true h4
  unfold list_analyses
  rw [h1]
  unfold list_analyses_decode findAllStrict
  rw [findAllStrictAux_nil _ _ hns]

theorem list_analyses_empty_on_no_groups_witness :
    specHasQuotedPairGroup ("foo\nbar").toList = false ∧
      list_analyses ⟨"n", "r", "p", "s", "f", 0⟩
          ⟨true, .matched 0, "foo\nbar", true, true, fun _ _ => []⟩ = .ok [] :=
  ⟨by decide,
    list_analyses_empty_on_no_groups ⟨"n", "r", "p", "s", "f", 0⟩
      ⟨true, .matched 0, "foo\nbar", true, true, fun _ _ => []⟩ 0 rfl rfl (by decide)⟩

end PySpectre
